import Mathlib

/-!
Verification of the preemption-aware retry orchestrator in
`runner/sentieon_runner.py` (function `main`, lines 114-399).

The embedding models the part of `main` that the specification calls the
core: the retry budget set-up (lines 133-136), the submit / poll / classify
retry loop (lines 286-356) and the final-operation block (lines 358-395).
Configuration validation, request-body construction and input-existence
checks (lines 140-277) have no effect on the orchestration state beyond the
fixed request payload and are not modelled.

Remote interactions are modelled by an environment `Env`:
  * `polls i` is the terminal result of polling the operation submitted as
    attempt `i` (the i-th call of `service.pipelines().run`, 0-indexed by
    the source's `counter`), or an `ssl.SSLError` raised during a
    `operations().get` call;
  * `zoneOperations zone url` is the response of
    `compute_service.zoneOperations().list` for the given zone and the
    filter built from the target URL `url`.

Counters: the source's `preemptible_tries` comes from
`int(job_vars["PREEMPTIBLE_TRIES"])` and `non_preemptible_tries` is `1`
when `NONPREEMPTIBLE_TRY` is truthy (lines 133-135) and otherwise is never
assigned, so the loop guard at line 286 raises an unhandled
`UnboundLocalError` (a `NameError`).  Counters are modelled as `Nat`; a
negative `PREEMPTIBLE_TRIES` behaves exactly like `0` in the source
(`preemptible_tries > 0` is `False` and the counter is never used again).
-/

/-- `operation["metadata"]["events"][i]["details"]`: the `@type` tag is
always present on genomics events; `instance` and `zone` are present only
on some event kinds, so they are `Option`s (a missing key is a Python
`KeyError`).  `inst` stands for the source's `details["instance"]`
(`instance` is reserved in Lean). -/
structure EventDetails where
  atType : String
  inst : Option String
  zone : Option String
deriving DecidableEq

/-- One element of `operation["metadata"]["events"]`. -/
structure Event where
  details : EventDetails
deriving DecidableEq

/-- One element of `compute_ops["items"]`. -/
structure ComputeOp where
  operationType : String
deriving DecidableEq

/-- `compute_ops`: the zoneOperations list response; `items` is `none` when
the `"items"` key is absent from the response dict. -/
structure ZoneOpsResponse where
  items : Option (List ComputeOp)
deriving DecidableEq

/-- Result of driving one submitted operation to a terminal state:
either an `ssl.SSLError` was raised by `operations().get` while polling,
or the operation reached `done == True`, with `hasError` telling whether
`"error" in operation` and `events` being `operation["metadata"]["events"]`. -/
inductive PollOutcome where
  | sslError : PollOutcome
  | terminal (hasError : Bool) (events : List Event) : PollOutcome
deriving DecidableEq

/-- The remote services, as observed by one run of `main`. -/
structure Env where
  polls : Nat → PollOutcome
  zoneOperations : String → String → ZoneOpsResponse

/-- The event-type tag tested at lines 299-301, 308-312 and 372-374. -/
def workerAssignedEventType : String :=
  "type.googleapis.com/google.genomics.v2alpha1.WorkerAssignedEvent"

/-- The operation type in the zoneOperations filter and at line 326. -/
def preemptedOperationType : String := "compute.instances.preempted"

/-- `target_url_base.format(**locals())` (lines 26-27, 316, 383). -/
def target_url_base (project zone inst : String) : String :=
  "https://www.googleapis.com/compute/v1/projects/" ++ project ++
    "/zones/" ++ zone ++ "/instances/" ++ inst

/-- The predicate of the `filter` at lines 307-313.  The source guards
`"details" in x and "@type" in x["details"]` before comparing; in this
model every event carries `details.atType`, so the guard is always true. -/
def isWorkerAssigned (x : Event) : Bool :=
  x.details.atType == workerAssignedEventType

/-- `any([x["details"]["@type"] == ... for x in events])` (lines 299-301
and 372-374). -/
def hasWorkerAssignedEvent (events : List Event) : Bool :=
  events.any isWorkerAssigned

/-- `filter(...)[0]` at lines 307-313: the FIRST worker-assignment event
of the list (`none` models the `IndexError` on an empty filter result,
unreachable under the guard at lines 299-305). -/
def startup_event (events : List Event) : Option Event :=
  (events.filter isWorkerAssigned).head?

/-- The mid-loop preemption criterion at lines 324-327:
`"items" in compute_ops and any([x["operationType"] ==
"compute.instances.preempted" for x in compute_ops["items"]])`. -/
def midPreemptionCheck (compute_ops : ZoneOpsResponse) : Bool :=
  match compute_ops.items with
  | some items => items.any (fun x => x.operationType == preemptedOperationType)
  | none => false

/-- The final-block preemption criterion at line 390:
`"items" in compute_ops` (mere key presence, the items are not inspected). -/
def finalPreemptionCheck (compute_ops : ZoneOpsResponse) : Bool :=
  compute_ops.items.isSome

/-- Python exceptions that the modelled code can raise. -/
inductive PyError where
  | nameError
  | keyError
  | indexError
deriving DecidableEq

/-- What happened when one pending operation was driven to a terminal state
and (on failure) classified.  `preempted` and `notPreempted` record the
`zone` and `url` that were sent to the zoneOperations query. -/
inductive ProcessResult where
  | networkError
  | succeeded (events : List Event)
  | preStart (events : List Event)
  | preempted (zone url : String)
  | notPreempted (zone url : String)
  | pyError (e : PyError)
deriving DecidableEq

/-- `true` exactly on `preempted` results. -/
def ProcessResult.isPreempted : ProcessResult → Bool
  | .preempted _ _ => true
  | _ => false

/-- Mid-loop handling of the pending operation, lines 288-335:
poll to terminal (`ssl.SSLError` is fatal, lines 293-296); with
`"error" in operation`, no worker-assignment event means a pre-start
failure (lines 298-305); otherwise extract `instance` and `zone` from
`filter(...)[0]` (lines 307-315), build the target URL (line 316), and
run the zoneOperations query with the criterion of lines 324-327. -/
def processOperation (env : Env) (project : String) (idx : Nat) : ProcessResult :=
  match env.polls idx with
  | .sslError => .networkError
  | .terminal hasError events =>
    if hasError then
      if hasWorkerAssignedEvent events then
        match startup_event events with
        | none => .pyError .indexError
        | some e =>
          match e.details.inst, e.details.zone with
          | some inst, some zone =>
            let url := target_url_base project zone inst
            if midPreemptionCheck (env.zoneOperations zone url) then
              .preempted zone url
            else
              .notPreempted zone url
          | _, _ => .pyError .keyError
      else .preStart events
    else .succeeded events

/-- Final-block handling of the pending operation, lines 358-395: same
poll and pre-start test as the mid-loop path, but `instance` and `zone`
come from `events[-1]` — the LAST event of the list regardless of its type
(lines 380-382; a non-worker-assignment last event lacking those keys is a
`KeyError`) — and the preemption criterion is the key-presence test of
line 390. -/
def finalProcessOperation (env : Env) (project : String) (idx : Nat) : ProcessResult :=
  match env.polls idx with
  | .sslError => .networkError
  | .terminal hasError events =>
    if hasError then
      if hasWorkerAssignedEvent events then
        match events.getLast? with
        | none => .pyError .indexError
        | some e =>
          match e.details.inst, e.details.zone with
          | some inst, some zone =>
            let url := target_url_base project zone inst
            if finalPreemptionCheck (env.zoneOperations zone url) then
              .preempted zone url
            else
              .notPreempted zone url
          | _, _ => .pyError .keyError
      else .preStart events
    else .succeeded events

/-- The terminal print / exit reached by a run: each constructor is one
exit site of the source.
  * `noOperation`      — `main` returns with `operation` falsy (line 358).
  * `operationSucceeded` — line 395 (also reached through the break at 335).
  * `preStartFailure`  — `sys.exit(2)` at line 305 or 378.
  * `networkError`     — `sys.exit(1)` at line 296 or 369.
  * `midLoopNotPreempted` — lines 329-333: print, `operation = None`, break.
  * `finalPreempted`   — line 391, then `main` returns.
  * `finalNotPreempted` — line 393, then `main` returns.
  * `raised e`         — an unhandled Python exception propagates. -/
inductive Report where
  | noOperation
  | operationSucceeded
  | preStartFailure
  | networkError
  | midLoopNotPreempted
  | finalPreempted
  | finalNotPreempted
  | raised (e : PyError)
deriving DecidableEq

/-- Observable outcome of (the rest of) a run.  `exitCode` is the process
exit status (`none` when an unhandled exception propagates), `submissions`
counts `service.pipelines().run` calls (the source's `counter`),
`attempts` records `(preemptible_tries, non_preemptible_tries,
vm_dict["preemptible"])` at each submission — counters read just before
the decrement at lines 337-342, flag as submitted in the request body —
and `processed` records each mid-loop classification in order. -/
structure RunResult where
  exitCode : Option Nat
  report : Report
  submissions : Nat
  attempts : List (Nat × Nat × Bool)
  processed : List ProcessResult
deriving DecidableEq

/-- Lines 358-395: the block after the loop, for a pending operation
`op` (`none` when `operation` is falsy). -/
def finalBlock (env : Env) (project : String) (op : Option Nat) : RunResult :=
  match op with
  | none => ⟨some 0, .noOperation, 0, [], []⟩
  | some idx =>
    match finalProcessOperation env project idx with
    | .networkError => ⟨some 1, .networkError, 0, [], []⟩
    | .succeeded _ => ⟨some 0, .operationSucceeded, 0, [], []⟩
    | .preStart _ => ⟨some 2, .preStartFailure, 0, [], []⟩
    | .preempted _ _ => ⟨some 0, .finalPreempted, 0, [], []⟩
    | .notPreempted _ _ => ⟨some 0, .finalNotPreempted, 0, [], []⟩
    | .pyError e => ⟨none, .raised e, 0, [], []⟩

/-- The loop of lines 286-356, from the state `(p, n, counter, op)` where
`p` is `preemptible_tries`, `n` is `non_preemptible_tries`, `counter`
counts submissions so far and `op` is the pending operation (as the index
of the attempt that produced it).  The guard `n > 0 ∨ p > 0` is line 286;
each iteration first handles the pending operation (lines 287-335:
`ProcessResult` cases `networkError`, `succeeded`, `preStart` and
`notPreempted` leave the loop exactly as the source's exits and breaks
do), then chooses the attempt mode and decrements one counter (lines
337-342) and submits (lines 344-356).  The extra `fuel` argument makes the
recursion structural; it is called with `fuel = p + n`, and since each
iteration lowers `p + n` by exactly one, `fuel = p + n` holds at every
recursive call, so the `0` pattern coincides with the guard being false. -/
def runLoopGo (env : Env) (project : String) :
    Nat → Nat → Nat → Nat → Option Nat → RunResult
  | 0, _, _, _, op => finalBlock env project op
  | fuel + 1, p, n, counter, op =>
    if n > 0 ∨ p > 0 then
      match op with
      | some idx =>
        match processOperation env project idx with
        | .networkError => ⟨some 1, .networkError, 0, [], [.networkError]⟩
        | .succeeded evs => ⟨some 0, .operationSucceeded, 0, [], [.succeeded evs]⟩
        | .preStart evs => ⟨some 2, .preStartFailure, 0, [], [.preStart evs]⟩
        | .notPreempted z u =>
          ⟨some 0, .midLoopNotPreempted, 0, [], [.notPreempted z u]⟩
        | .pyError e => ⟨none, .raised e, 0, [], [.pyError e]⟩
        | .preempted z u =>
          if p > 0 then
            let r := runLoopGo env project fuel (p - 1) n (counter + 1) (some counter)
            ⟨r.exitCode, r.report, r.submissions + 1, (p, n, true) :: r.attempts,
              .preempted z u :: r.processed⟩
          else
            let r := runLoopGo env project fuel p (n - 1) (counter + 1) (some counter)
            ⟨r.exitCode, r.report, r.submissions + 1, (p, n, false) :: r.attempts,
              .preempted z u :: r.processed⟩
      | none =>
        if p > 0 then
          let r := runLoopGo env project fuel (p - 1) n (counter + 1) (some counter)
          ⟨r.exitCode, r.report, r.submissions + 1, (p, n, true) :: r.attempts,
            r.processed⟩
        else
          let r := runLoopGo env project fuel p (n - 1) (counter + 1) (some counter)
          ⟨r.exitCode, r.report, r.submissions + 1, (p, n, false) :: r.attempts,
            r.processed⟩
    else finalBlock env project op

/-- The loop of lines 286-356 followed by the block of lines 358-395. -/
def runLoop (env : Env) (project : String) (p n counter : Nat)
    (op : Option Nat) : RunResult :=
  runLoopGo env project (p + n) p n counter op

/-- The orchestration part of `main`: lines 133-135 bind
`non_preemptible_tries = 1` only when `NONPREEMPTIBLE_TRY` is truthy;
when it is falsy the guard at line 286 reads the unassigned local and
raises `UnboundLocalError` (a `NameError`) before anything is submitted.
Otherwise run the loop from `counter = 0` with no pending operation.
(Named `mainRun` because `main` is reserved for entry points in Lean.) -/
def mainRun (env : Env) (project : String) (preemptibleTries : Nat)
    (nonPreemptibleTry : Bool) : RunResult :=
  if nonPreemptibleTry then
    runLoop env project preemptibleTries 1 0 none
  else
    ⟨none, .raised .nameError, 0, [], []⟩

/-- A worker-assignment event carrying an instance and a zone. -/
def waEvent (i z : String) : Event :=
  ⟨⟨workerAssignedEventType, some i, some z⟩⟩

/-- A non-worker-assignment event (a pull-started event has no
`instance` or `zone` keys in its details). -/
def pullEvent : Event :=
  ⟨⟨"type.googleapis.com/google.genomics.v2alpha1.PullStartedEvent", none, none⟩⟩

/-- Every attempt fails after worker assignment and the zoneOperations
query returns one preemption operation. -/
def envPreempt : Env :=
  ⟨fun _ => .terminal true [waEvent "inst0" "zone0"],
   fun _ _ => ⟨some [⟨preemptedOperationType⟩]⟩⟩

/-- Every attempt fails after worker assignment and the zoneOperations
query response has no `items` key. -/
def envUnrelated : Env :=
  ⟨fun _ => .terminal true [waEvent "inst0" "zone0"],
   fun _ _ => ⟨none⟩⟩

/-- Every attempt fails after worker assignment and the zoneOperations
query returns a present but empty `items` list. -/
def envEmptyItems : Env :=
  ⟨fun _ => .terminal true [waEvent "inst0" "zone0"],
   fun _ _ => ⟨some []⟩⟩

/-- Every attempt fails with two worker-assignment events naming
different instances and zones. -/
def envTwoWA : Env :=
  ⟨fun _ => .terminal true [waEvent "i1" "z1", waEvent "i2" "z2"],
   fun _ _ => ⟨none⟩⟩

/-- Every attempt fails before any worker is assigned. -/
def envPreStart : Env :=
  ⟨fun _ => .terminal true [pullEvent], fun _ _ => ⟨none⟩⟩

/-- Every poll raises `ssl.SSLError`. -/
def envSSL : Env :=
  ⟨fun _ => .sslError, fun _ _ => ⟨none⟩⟩

/-- Every attempt reaches `done` with no error. -/
def envSucceed : Env :=
  ⟨fun _ => .terminal false [], fun _ _ => ⟨none⟩⟩

/-- Attempt 0 is preempted, every later attempt succeeds. -/
def envSecondSucceeds : Env :=
  ⟨fun i => if i = 0 then .terminal true [waEvent "inst0" "zone0"]
            else .terminal false [],
   fun _ _ => ⟨some [⟨preemptedOperationType⟩]⟩⟩

/-- Attempt 0 fails before worker assignment, every later attempt
succeeds. -/
def envFirstFatal : Env :=
  ⟨fun i => if i = 0 then .terminal true [pullEvent]
            else .terminal false [],
   fun _ _ => ⟨none⟩⟩













/-- The exit code reached from each terminal report: `sys.exit(2)` at
lines 305/378, `sys.exit(1)` at lines 296/369, every other path falls off
the end of `main` (exit status 0); an unhandled exception has no
`sys.exit` status. -/
def reportExitCode : Report → Option Nat
  | .preStartFailure => some 2
  | .networkError => some 1
  | .raised _ => none
  | _ => some 0

theorem finalBlock_trace (env : Env) (project : String) (op : Option Nat) :
    (finalBlock env project op).submissions = 0 ∧
    (finalBlock env project op).attempts = [] ∧
    (finalBlock env project op).processed = [] := by
  cases op with
  | none => exact ⟨rfl, rfl, rfl⟩
  | some idx => cases h : finalProcessOperation env project idx <;> simp [finalBlock, h]

theorem finalBlock_exit (env : Env) (project : String) (op : Option Nat) :
    (finalBlock env project op).exitCode =
      reportExitCode (finalBlock env project op).report := by
  cases op with
  | none => rfl
  | some idx =>
    cases h : finalProcessOperation env project idx <;>
      simp [finalBlock, h, reportExitCode]

theorem runLoopGo_exit (env : Env) (project : String) :
    ∀ fuel p n counter op,
      (runLoopGo env project fuel p n counter op).exitCode =
        reportExitCode (runLoopGo env project fuel p n counter op).report := by
  intro fuel
  induction fuel with
  | zero => intro p n counter op; exact finalBlock_exit env project op
  | succ f ih =>
    intro p n counter op
    by_cases hg : n > 0 ∨ p > 0
    · rw [runLoopGo.eq_def]
      simp only []
      rw [if_pos hg]
      cases op with
      | none =>
        by_cases hp : p > 0 <;> simp only [if_pos, if_neg, hp, ite_true, ite_false] <;>
          exact ih _ _ _ _
      | some idx =>
        cases h : processOperation env project idx with
        | preempted z u =>
          by_cases hp : p > 0 <;>
            simp only [h, hp, ite_true, ite_false] <;> exact ih _ _ _ _
        | _ => simp [h, reportExitCode]
    · rw [runLoopGo.eq_def]
      simp only []
      rw [if_neg hg]
      exact finalBlock_exit env project op

theorem runLoop_exit (env : Env) (project : String) (p n counter : Nat)
    (op : Option Nat) :
    (runLoop env project p n counter op).exitCode =
      reportExitCode (runLoop env project p n counter op).report :=
  runLoopGo_exit env project (p + n) p n counter op

theorem runLoop_eq_final (env : Env) (project : String) {p n : Nat}
    (counter : Nat) (op : Option Nat) (h : p + n = 0) :
    runLoop env project p n counter op = finalBlock env project op := by
  unfold runLoop
  rw [h]
  rfl

theorem runLoop_none_p (env : Env) (project : String) {p : Nat} (n counter : Nat)
    (hp : p > 0) :
    runLoop env project p n counter none =
      ⟨(runLoop env project (p - 1) n (counter + 1) (some counter)).exitCode,
       (runLoop env project (p - 1) n (counter + 1) (some counter)).report,
       (runLoop env project (p - 1) n (counter + 1) (some counter)).submissions + 1,
       (p, n, true) ::
         (runLoop env project (p - 1) n (counter + 1) (some counter)).attempts,
       (runLoop env project (p - 1) n (counter + 1) (some counter)).processed⟩ := by
  obtain ⟨f, hf⟩ : ∃ f, p + n = f + 1 := ⟨p + n - 1, by omega⟩
  have hfold : f = p - 1 + n := by omega
  unfold runLoop
  rw [hf, runLoopGo.eq_def]
  simp only []
  rw [if_pos (by omega : n > 0 ∨ p > 0), if_pos hp, hfold]

theorem runLoop_none_np (env : Env) (project : String) {p n : Nat} (counter : Nat)
    (hp : ¬ p > 0) (hn : n > 0) :
    runLoop env project p n counter none =
      ⟨(runLoop env project p (n - 1) (counter + 1) (some counter)).exitCode,
       (runLoop env project p (n - 1) (counter + 1) (some counter)).report,
       (runLoop env project p (n - 1) (counter + 1) (some counter)).submissions + 1,
       (p, n, false) ::
         (runLoop env project p (n - 1) (counter + 1) (some counter)).attempts,
       (runLoop env project p (n - 1) (counter + 1) (some counter)).processed⟩ := by
  obtain ⟨f, hf⟩ : ∃ f, p + n = f + 1 := ⟨p + n - 1, by omega⟩
  have hfold : f = p + (n - 1) := by omega
  unfold runLoop
  rw [hf, runLoopGo.eq_def]
  simp only []
  rw [if_pos (by omega : n > 0 ∨ p > 0), if_neg hp, hfold]

theorem runLoop_some_ssl (env : Env) (project : String) {p n : Nat}
    (counter idx : Nat) (h : 0 < p + n)
    (hx : processOperation env project idx = .networkError) :
    runLoop env project p n counter (some idx) =
      ⟨some 1, .networkError, 0, [], [.networkError]⟩ := by
  obtain ⟨f, hf⟩ : ∃ f, p + n = f + 1 := ⟨p + n - 1, by omega⟩
  unfold runLoop
  rw [hf, runLoopGo.eq_def]
  simp only []
  rw [if_pos (by omega : n > 0 ∨ p > 0)]
  simp [hx]

theorem runLoop_some_succeeded (env : Env) (project : String) {p n : Nat}
    (counter idx : Nat) (evs : List Event) (h : 0 < p + n)
    (hx : processOperation env project idx = .succeeded evs) :
    runLoop env project p n counter (some idx) =
      ⟨some 0, .operationSucceeded, 0, [], [.succeeded evs]⟩ := by
  obtain ⟨f, hf⟩ : ∃ f, p + n = f + 1 := ⟨p + n - 1, by omega⟩
  unfold runLoop
  rw [hf, runLoopGo.eq_def]
  simp only []
  rw [if_pos (by omega : n > 0 ∨ p > 0)]
  simp [hx]

theorem runLoop_some_prestart (env : Env) (project : String) {p n : Nat}
    (counter idx : Nat) (evs : List Event) (h : 0 < p + n)
    (hx : processOperation env project idx = .preStart evs) :
    runLoop env project p n counter (some idx) =
      ⟨some 2, .preStartFailure, 0, [], [.preStart evs]⟩ := by
  obtain ⟨f, hf⟩ : ∃ f, p + n = f + 1 := ⟨p + n - 1, by omega⟩
  unfold runLoop
  rw [hf, runLoopGo.eq_def]
  simp only []
  rw [if_pos (by omega : n > 0 ∨ p > 0)]
  simp [hx]

theorem runLoop_some_notpre (env : Env) (project : String) {p n : Nat}
    (counter idx : Nat) (z u : String) (h : 0 < p + n)
    (hx : processOperation env project idx = .notPreempted z u) :
    runLoop env project p n counter (some idx) =
      ⟨some 0, .midLoopNotPreempted, 0, [], [.notPreempted z u]⟩ := by
  obtain ⟨f, hf⟩ : ∃ f, p + n = f + 1 := ⟨p + n - 1, by omega⟩
  unfold runLoop
  rw [hf, runLoopGo.eq_def]
  simp only []
  rw [if_pos (by omega : n > 0 ∨ p > 0)]
  simp [hx]

theorem runLoop_some_pyerr (env : Env) (project : String) {p n : Nat}
    (counter idx : Nat) (e : PyError) (h : 0 < p + n)
    (hx : processOperation env project idx = .pyError e) :
    runLoop env project p n counter (some idx) =
      ⟨none, .raised e, 0, [], [.pyError e]⟩ := by
  obtain ⟨f, hf⟩ : ∃ f, p + n = f + 1 := ⟨p + n - 1, by omega⟩
  unfold runLoop
  rw [hf, runLoopGo.eq_def]
  simp only []
  rw [if_pos (by omega : n > 0 ∨ p > 0)]
  simp [hx]

theorem runLoop_some_pre_p (env : Env) (project : String) {p : Nat}
    (n counter idx : Nat) (z u : String) (hp : p > 0)
    (hx : processOperation env project idx = .preempted z u) :
    runLoop env project p n counter (some idx) =
      ⟨(runLoop env project (p - 1) n (counter + 1) (some counter)).exitCode,
       (runLoop env project (p - 1) n (counter + 1) (some counter)).report,
       (runLoop env project (p - 1) n (counter + 1) (some counter)).submissions + 1,
       (p, n, true) ::
         (runLoop env project (p - 1) n (counter + 1) (some counter)).attempts,
       .preempted z u ::
         (runLoop env project (p - 1) n (counter + 1) (some counter)).processed⟩ := by
  obtain ⟨f, hf⟩ : ∃ f, p + n = f + 1 := ⟨p + n - 1, by omega⟩
  have hfold : f = p - 1 + n := by omega
  unfold runLoop
  rw [hf, runLoopGo.eq_def]
  simp only []
  rw [if_pos (by omega : n > 0 ∨ p > 0)]
  simp only [hx]
  rw [if_pos hp, hfold]

theorem runLoop_some_pre_np (env : Env) (project : String) {p n : Nat}
    (counter idx : Nat) (z u : String) (hp : ¬ p > 0) (hn : n > 0)
    (hx : processOperation env project idx = .preempted z u) :
    runLoop env project p n counter (some idx) =
      ⟨(runLoop env project p (n - 1) (counter + 1) (some counter)).exitCode,
       (runLoop env project p (n - 1) (counter + 1) (some counter)).report,
       (runLoop env project p (n - 1) (counter + 1) (some counter)).submissions + 1,
       (p, n, false) ::
         (runLoop env project p (n - 1) (counter + 1) (some counter)).attempts,
       .preempted z u ::
         (runLoop env project p (n - 1) (counter + 1) (some counter)).processed⟩ := by
  obtain ⟨f, hf⟩ : ∃ f, p + n = f + 1 := ⟨p + n - 1, by omega⟩
  have hfold : f = p + (n - 1) := by omega
  unfold runLoop
  rw [hf, runLoopGo.eq_def]
  simp only []
  rw [if_pos (by omega : n > 0 ∨ p > 0)]
  simp only [hx]
  rw [if_neg hp, hfold]

theorem runLoopGo_submissions_le (env : Env) (project : String) :
    ∀ fuel p n counter op,
      (runLoopGo env project fuel p n counter op).submissions ≤ p + n := by
  intro fuel
  induction fuel with
  | zero =>
    intro p n counter op
    have h0 : runLoopGo env project 0 p n counter op = finalBlock env project op := rfl
    rw [h0, (finalBlock_trace env project op).1]
    omega
  | succ f ih =>
    intro p n counter op
    by_cases hg : n > 0 ∨ p > 0
    · cases op with
      | none =>
        rw [runLoopGo.eq_def]
        dsimp only
        rw [if_pos hg]
        by_cases hp : p > 0
        · rw [if_pos hp]
          dsimp only
          have := ih (p - 1) n (counter + 1) (some counter)
          omega
        · rw [if_neg hp]
          dsimp only
          have := ih p (n - 1) (counter + 1) (some counter)
          omega
      | some idx =>
        rw [runLoopGo.eq_def]
        dsimp only
        rw [if_pos hg]
        cases h : processOperation env project idx with
        | preempted z u =>
          dsimp only
          by_cases hp : p > 0
          · rw [if_pos hp]
            dsimp only
            have := ih (p - 1) n (counter + 1) (some counter)
            omega
          · rw [if_neg hp]
            dsimp only
            have := ih p (n - 1) (counter + 1) (some counter)
            omega
        | networkError => dsimp only; omega
        | succeeded evs => dsimp only; omega
        | preStart evs => dsimp only; omega
        | notPreempted z u => dsimp only; omega
        | pyError e => dsimp only; omega
    · rw [runLoopGo.eq_def]
      dsimp only
      rw [if_neg hg, (finalBlock_trace env project op).1]
      omega

theorem runLoopGo_exact (env : Env) (project : String) :
    ∀ fuel p n counter op,
      (runLoopGo env project fuel p n counter op).submissions = p + n →
      (∀ x ∈ (runLoopGo env project fuel p n counter op).processed,
        x.isPreempted = true) ∧
      (runLoopGo env project fuel p n counter op).processed.length =
        (match op with | none => p + n - 1 | some _ => p + n) := by
  intro fuel
  induction fuel with
  | zero =>
    intro p n counter op
    have h0 : runLoopGo env project 0 p n counter op = finalBlock env project op := rfl
    rw [h0, (finalBlock_trace env project op).1, (finalBlock_trace env project op).2.2]
    intro hs
    cases op <;> simp <;> omega
  | succ f ih =>
    intro p n counter op
    by_cases hg : n > 0 ∨ p > 0
    · cases op with
      | none =>
        rw [runLoopGo.eq_def]
        dsimp only
        rw [if_pos hg]
        by_cases hp : p > 0
        · rw [if_pos hp]
          dsimp only
          intro hs
          have hsub : (runLoopGo env project f (p - 1) n (counter + 1)
              (some counter)).submissions = (p - 1) + n := by omega
          have := ih (p - 1) n (counter + 1) (some counter) hsub
          refine ⟨this.1, ?_⟩
          rw [this.2]
          dsimp only
          omega
        · rw [if_neg hp]
          dsimp only
          intro hs
          have hsub : (runLoopGo env project f p (n - 1) (counter + 1)
              (some counter)).submissions = p + (n - 1) := by omega
          have := ih p (n - 1) (counter + 1) (some counter) hsub
          refine ⟨this.1, ?_⟩
          rw [this.2]
          dsimp only
          omega
      | some idx =>
        rw [runLoopGo.eq_def]
        dsimp only
        rw [if_pos hg]
        cases h : processOperation env project idx with
        | preempted z u =>
          dsimp only
          by_cases hp : p > 0
          · rw [if_pos hp]
            dsimp only
            intro hs
            have hsub : (runLoopGo env project f (p - 1) n (counter + 1)
                (some counter)).submissions = (p - 1) + n := by omega
            have := ih (p - 1) n (counter + 1) (some counter) hsub
            constructor
            · intro x hx
              rcases List.mem_cons.1 hx with hx1 | hx2
              · rw [hx1]; rfl
              · exact this.1 x hx2
            · rw [List.length_cons, this.2]
              dsimp only
              omega
          · rw [if_neg hp]
            dsimp only
            intro hs
            have hsub : (runLoopGo env project f p (n - 1) (counter + 1)
                (some counter)).submissions = p + (n - 1) := by omega
            have := ih p (n - 1) (counter + 1) (some counter) hsub
            constructor
            · intro x hx
              rcases List.mem_cons.1 hx with hx1 | hx2
              · rw [hx1]; rfl
              · exact this.1 x hx2
            · rw [List.length_cons, this.2]
              dsimp only
              omega
        | networkError => dsimp only; intro hs; exact absurd hs (by omega)
        | succeeded evs => dsimp only; intro hs; exact absurd hs (by omega)
        | preStart evs => dsimp only; intro hs; exact absurd hs (by omega)
        | notPreempted z u => dsimp only; intro hs; exact absurd hs (by omega)
        | pyError e => dsimp only; intro hs; exact absurd hs (by omega)
    · rw [runLoopGo.eq_def]
      dsimp only
      rw [if_neg hg]
      rw [(finalBlock_trace env project op).1, (finalBlock_trace env project op).2.2]
      intro hs
      cases op <;> simp <;> omega

theorem runLoopGo_attempts_inv (env : Env) (project : String) :
    ∀ fuel p n counter op,
      (∀ a ∈ (runLoopGo env project fuel p n counter op).attempts,
        a.1 ≤ p ∧ a.2.1 ≤ n ∧ 0 < a.1 + a.2.1 ∧ a.2.2 = decide (a.1 > 0)) ∧
      List.Chain' (fun a b : Nat × Nat × Bool => b.1 ≤ a.1 ∧ b.2.1 ≤ a.2.1)
        (runLoopGo env project fuel p n counter op).attempts := by
  intro fuel
  induction fuel with
  | zero =>
    intro p n counter op
    have h0 : runLoopGo env project 0 p n counter op = finalBlock env project op := rfl
    rw [h0, (finalBlock_trace env project op).2.1]
    simp
  | succ f ih =>
    intro p n counter op
    by_cases hg : n > 0 ∨ p > 0
    · have hpn : 0 < p + n := by rcases hg with h1 | h1 <;> omega
      have step :
          ∀ p' n' mode, p' ≤ p → n' ≤ n → mode = decide (p > 0) →
          (∀ a ∈ (runLoopGo env project f p' n' (counter + 1)
              (some counter)).attempts,
            a.1 ≤ p ∧ a.2.1 ≤ n ∧ 0 < a.1 + a.2.1 ∧ a.2.2 = decide (a.1 > 0)) ∧
          List.Chain' (fun a b : Nat × Nat × Bool => b.1 ≤ a.1 ∧ b.2.1 ≤ a.2.1)
            ((p, n, mode) ::
              (runLoopGo env project f p' n' (counter + 1) (some counter)).attempts) := by
        intro p' n' mode hp' hn' hmode
        have hrec := ih p' n' (counter + 1) (some counter)
        constructor
        · intro a ha
          have := hrec.1 a ha
          exact ⟨le_trans this.1 hp', le_trans this.2.1 hn', this.2.2.1, this.2.2.2⟩
        · rw [List.chain'_cons']
          refine ⟨?_, hrec.2⟩
          intro y hy
          have hmem := List.mem_of_mem_head? hy
          have := hrec.1 y hmem
          exact ⟨le_trans this.1 hp', le_trans this.2.1 hn'⟩
      cases op with
      | none =>
        rw [runLoopGo.eq_def]
        dsimp only
        rw [if_pos hg]
        by_cases hp : p > 0
        · rw [if_pos hp]
          dsimp only
          have hs := step (p - 1) n true (by omega) (le_refl n) (by simp [hp])
          refine ⟨?_, hs.2⟩
          intro a ha
          rcases List.mem_cons.1 ha with ha1 | ha2
          · rw [ha1]
            refine ⟨le_refl p, le_refl n, hpn, by simp [hp]⟩
          · exact hs.1 a ha2
        · rw [if_neg hp]
          dsimp only
          have hs := step p (n - 1) false (le_refl p) (by omega) (by simp [hp])
          refine ⟨?_, hs.2⟩
          intro a ha
          rcases List.mem_cons.1 ha with ha1 | ha2
          · rw [ha1]
            refine ⟨le_refl p, le_refl n, hpn, by simp [hp]⟩
          · exact hs.1 a ha2
      | some idx =>
        rw [runLoopGo.eq_def]
        dsimp only
        rw [if_pos hg]
        cases h : processOperation env project idx with
        | preempted z u =>
          dsimp only
          by_cases hp : p > 0
          · rw [if_pos hp]
            dsimp only
            have hs := step (p - 1) n true (by omega) (le_refl n) (by simp [hp])
            refine ⟨?_, hs.2⟩
            intro a ha
            rcases List.mem_cons.1 ha with ha1 | ha2
            · rw [ha1]
              refine ⟨le_refl p, le_refl n, hpn, by simp [hp]⟩
            · exact hs.1 a ha2
          · rw [if_neg hp]
            dsimp only
            have hs := step p (n - 1) false (le_refl p) (by omega) (by simp [hp])
            refine ⟨?_, hs.2⟩
            intro a ha
            rcases List.mem_cons.1 ha with ha1 | ha2
            · rw [ha1]
              refine ⟨le_refl p, le_refl n, hpn, by simp [hp]⟩
            · exact hs.1 a ha2
        | networkError => dsimp only; simp
        | succeeded evs => dsimp only; simp
        | preStart evs => dsimp only; simp
        | notPreempted z u => dsimp only; simp
        | pyError e => dsimp only; simp
    · rw [runLoopGo.eq_def]
      dsimp only
      rw [if_neg hg, (finalBlock_trace env project op).2.1]
      simp

theorem isPreempted_iff (r : ProcessResult) :
    r.isPreempted = true ↔ ∃ z u, r = .preempted z u := by
  cases r <;> simp [ProcessResult.isPreempted]

theorem processOperation_succeeded (env : Env) (project : String) (idx : Nat)
    (evs : List Event) (h : env.polls idx = .terminal false evs) :
    processOperation env project idx = .succeeded evs := by
  simp [processOperation, h]

theorem finalProcessOperation_succeeded (env : Env) (project : String) (idx : Nat)
    (evs : List Event) (h : env.polls idx = .terminal false evs) :
    finalProcessOperation env project idx = .succeeded evs := by
  simp [finalProcessOperation, h]

theorem finalBlock_preempted (env : Env) (project : String) (idx : Nat)
    (h : (finalProcessOperation env project idx).isPreempted = true) :
    finalBlock env project (some idx) = ⟨some 0, .finalPreempted, 0, [], []⟩ := by
  obtain ⟨z, u, hz⟩ := (isPreempted_iff _).1 h
  simp [finalBlock, hz]

theorem finalBlock_succeeded (env : Env) (project : String) (idx : Nat)
    (evs : List Event) (h : finalProcessOperation env project idx = .succeeded evs) :
    finalBlock env project (some idx) = ⟨some 0, .operationSucceeded, 0, [], []⟩ := by
  simp [finalBlock, h]

theorem runLoop_advance_preempted (env : Env) (project : String) :
    ∀ R p n counter, p + n = R → 1 ≤ counter →
      (∀ i, counter - 1 ≤ i → i < counter + R - 1 →
        (processOperation env project i).isPreempted = true) →
      (finalProcessOperation env project (counter + R - 1)).isPreempted = true →
      (runLoop env project p n counter (some (counter - 1))).exitCode = some 0 ∧
      (runLoop env project p n counter (some (counter - 1))).report =
        .finalPreempted ∧
      (runLoop env project p n counter (some (counter - 1))).submissions = R := by
  intro R
  induction R with
  | zero =>
    intro p n counter hR hc hmid hfin
    rw [runLoop_eq_final env project counter (some (counter - 1)) hR]
    have hfin2 : (finalProcessOperation env project (counter - 1)).isPreempted =
        true := by simpa using hfin
    rw [finalBlock_preempted env project (counter - 1) hfin2]
    exact ⟨rfl, rfl, rfl⟩
  | succ R ih =>
    intro p n counter hR hc hmid hfin
    have hpre : (processOperation env project (counter - 1)).isPreempted = true :=
      hmid (counter - 1) (le_refl _) (by omega)
    obtain ⟨z, u, hz⟩ := (isPreempted_iff _).1 hpre
    by_cases hp : p > 0
    · rw [runLoop_some_pre_p env project n counter (counter - 1) z u hp hz]
      have ihh := ih (p - 1) n (counter + 1) (by omega) (by omega)
        (by intro i hi1 hi2
            exact hmid i (by omega) (by omega))
        (by have : counter + 1 + R - 1 = counter + (R + 1) - 1 := by omega
            rw [this]
            exact hfin)
      have h1 := ihh.1
      have h2 := ihh.2.1
      have h3 := ihh.2.2
      have hsimp : counter + 1 - 1 = counter := by omega
      rw [hsimp] at h1 h2 h3
      exact ⟨h1, h2, by dsimp only; omega⟩
    · rw [runLoop_some_pre_np env project counter (counter - 1) z u hp (by omega) hz]
      have ihh := ih p (n - 1) (counter + 1) (by omega) (by omega)
        (by intro i hi1 hi2
            exact hmid i (by omega) (by omega))
        (by have : counter + 1 + R - 1 = counter + (R + 1) - 1 := by omega
            rw [this]
            exact hfin)
      have h1 := ihh.1
      have h2 := ihh.2.1
      have h3 := ihh.2.2
      have hsimp : counter + 1 - 1 = counter := by omega
      rw [hsimp] at h1 h2 h3
      exact ⟨h1, h2, by dsimp only; omega⟩

theorem runLoop_advance_succeed (env : Env) (project : String) (k : Nat)
    (evs : List Event) (hsucc : env.polls (k - 1) = .terminal false evs)
    (hmid : ∀ i, i + 1 < k →
      (processOperation env project i).isPreempted = true) :
    ∀ m p n counter, counter + m = k → 1 ≤ counter → k ≤ counter + (p + n) →
      (runLoop env project p n counter (some (counter - 1))).exitCode = some 0 ∧
      (runLoop env project p n counter (some (counter - 1))).report =
        .operationSucceeded ∧
      (runLoop env project p n counter (some (counter - 1))).submissions =
        k - counter := by
  intro m
  induction m with
  | zero =>
    intro p n counter hck hc hbud
    have hck2 : counter = k := by omega
    subst hck2
    by_cases hpn : 0 < p + n
    · rw [runLoop_some_succeeded env project counter (counter - 1) evs hpn
        (processOperation_succeeded env project (counter - 1) evs hsucc)]
      exact ⟨rfl, rfl, by dsimp only; omega⟩
    · rw [runLoop_eq_final env project counter (some (counter - 1)) (by omega)]
      rw [finalBlock_succeeded env project (counter - 1) evs
        (finalProcessOperation_succeeded env project (counter - 1) evs hsucc)]
      exact ⟨rfl, rfl, by dsimp only; omega⟩
  | succ m ih =>
    intro p n counter hck hc hbud
    have hclt : counter < k := by omega
    have hpre : (processOperation env project (counter - 1)).isPreempted = true :=
      hmid (counter - 1) (by omega)
    obtain ⟨z, u, hz⟩ := (isPreempted_iff _).1 hpre
    by_cases hp : p > 0
    · rw [runLoop_some_pre_p env project n counter (counter - 1) z u hp hz]
      have ihh := ih (p - 1) n (counter + 1) (by omega) (by omega) (by omega)
      have h1 := ihh.1
      have h2 := ihh.2.1
      have h3 := ihh.2.2
      have hsimp : counter + 1 - 1 = counter := by omega
      rw [hsimp] at h1 h2 h3
      exact ⟨h1, h2, by dsimp only; omega⟩
    · rw [runLoop_some_pre_np env project counter (counter - 1) z u hp (by omega) hz]
      have ihh := ih p (n - 1) (counter + 1) (by omega) (by omega) (by omega)
      have h1 := ihh.1
      have h2 := ihh.2.1
      have h3 := ihh.2.2
      have hsimp : counter + 1 - 1 = counter := by omega
      rw [hsimp] at h1 h2 h3
      exact ⟨h1, h2, by dsimp only; omega⟩

/-- C1 counterexample: a mid-loop attempt classified failed-but-not-preempted
(report `midLoopNotPreempted`, the source's lines 329-333) terminates the
run with exit code 0, not 2, even though one preemptible try of the budget
of two remains after the single submission. -/
theorem c1_counterexample :
    (runLoop envUnrelated "pr" 2 0 0 none).report = .midLoopNotPreempted ∧
    (runLoop envUnrelated "pr" 2 0 0 none).exitCode = some 0 ∧
    (runLoop envUnrelated "pr" 2 0 0 none).submissions = 1 := by decide

/-- C1 (amended): a run ending in `FatalPreStart` exits with code 2, but a
run whose final outcome is failed-but-not-preempted (`FatalUnrelated`)
exits with code 0 on both the mid-loop path (lines 329-333 break out of
the loop with `operation = None` and `main` returns) and the final path
(line 393 prints and `main` returns). -/
theorem c1_exit_codes (env : Env) (project : String) (p n : Nat) :
    ((runLoop env project p n 0 none).report = .preStartFailure →
      (runLoop env project p n 0 none).exitCode = some 2) ∧
    ((runLoop env project p n 0 none).report = .midLoopNotPreempted →
      (runLoop env project p n 0 none).exitCode = some 0) ∧
    ((runLoop env project p n 0 none).report = .finalNotPreempted →
      (runLoop env project p n 0 none).exitCode = some 0) := by
  have h := runLoop_exit env project p n 0 none
  refine ⟨?_, ?_, ?_⟩ <;> intro hr <;> rw [h, hr] <;> rfl

/-- C1 witness: the amended exit codes at concrete runs. -/
theorem c1_witness :
    (runLoop envPreStart "pr" 1 0 0 none).exitCode = some 2 ∧
    (runLoop envUnrelated "pr" 2 0 0 none).exitCode = some 0 :=
  ⟨(c1_exit_codes envPreStart "pr" 1 0).1 (by decide),
   (c1_exit_codes envUnrelated "pr" 2 0).2.1 (by decide)⟩

/-- C2 counterexample: with two worker-assignment events, the mid-loop
classifier extracts instance and zone from the FIRST such event
(`filter(...)[0]`, lines 307-315), not from the most recent (last) one as
the claim states: the query it issues names `z1`, not `z2`. -/
theorem c2_counterexample :
    startup_event [waEvent "i1" "z1", waEvent "i2" "z2"] =
      some (waEvent "i1" "z1") ∧
    List.getLast? [waEvent "i1" "z1", waEvent "i2" "z2"] =
      some (waEvent "i2" "z2") ∧
    processOperation envTwoWA "pr" 0 =
      .notPreempted "z1" (target_url_base "pr" "z1" "i1") ∧
    processOperation envTwoWA "pr" 0 ≠
      .notPreempted "z2" (target_url_base "pr" "z2" "i2") := by decide

/-- C2 (amended): on the mid-loop path, instance and zone come from the
FIRST worker-assignment event of the list and the target URL is built from
project, zone and instance; on the final path they come from the LAST
event of the list regardless of its type. -/
theorem c2_extraction (env : Env) (project : String) (idx : Nat)
    (events : List Event) (hpoll : env.polls idx = .terminal true events)
    (hwa : hasWorkerAssignedEvent events = true) :
    (∀ e inst zone, startup_event events = some e →
      e.details.inst = some inst → e.details.zone = some zone →
      processOperation env project idx =
        (if midPreemptionCheck
            (env.zoneOperations zone (target_url_base project zone inst)) then
          .preempted zone (target_url_base project zone inst)
        else
          .notPreempted zone (target_url_base project zone inst))) ∧
    (∀ e inst zone, events.getLast? = some e →
      e.details.inst = some inst → e.details.zone = some zone →
      finalProcessOperation env project idx =
        (if finalPreemptionCheck
            (env.zoneOperations zone (target_url_base project zone inst)) then
          .preempted zone (target_url_base project zone inst)
        else
          .notPreempted zone (target_url_base project zone inst))) := by
  constructor
  · intro e inst zone he hi hz
    simp [processOperation, hpoll, hwa, he, hi, hz]
  · intro e inst zone he hi hz
    simp [finalProcessOperation, hpoll, hwa, he, hi, hz]

/-- C2 witness: the amended extraction at a concrete operation whose event
list holds two worker-assignment events. -/
theorem c2_witness :
    processOperation envTwoWA "pr" 0 =
      (if midPreemptionCheck
          (envTwoWA.zoneOperations "z1" (target_url_base "pr" "z1" "i1")) then
        ProcessResult.preempted "z1" (target_url_base "pr" "z1" "i1")
      else
        ProcessResult.notPreempted "z1" (target_url_base "pr" "z1" "i1")) ∧
    finalProcessOperation envTwoWA "pr" 0 =
      (if finalPreemptionCheck
          (envTwoWA.zoneOperations "z2" (target_url_base "pr" "z2" "i2")) then
        ProcessResult.preempted "z2" (target_url_base "pr" "z2" "i2")
      else
        ProcessResult.notPreempted "z2" (target_url_base "pr" "z2" "i2")) :=
  ⟨(c2_extraction envTwoWA "pr" 0 [waEvent "i1" "z1", waEvent "i2" "z2"] rfl
      (by decide)).1 (waEvent "i1" "z1") "i1" "z1" (by decide) rfl rfl,
   (c2_extraction envTwoWA "pr" 0 [waEvent "i1" "z1", waEvent "i2" "z2"] rfl
      (by decide)).2 (waEvent "i2" "z2") "i2" "z2" (by decide) rfl rfl⟩


/-- C3 counterexample: a zoneOperations response carrying a present but
EMPTY `items` list satisfies the final-path criterion (line 390 tests only
key presence), so the run reports the final failure as due to preemption,
while the same response fails the mid-loop criterion of lines 324-327 —
the claim's assertion that both paths use the same criterion, with a
present-but-empty list counting as an empty result, is false. -/
theorem c3_counterexample :
    finalPreemptionCheck ⟨some []⟩ = true ∧
    midPreemptionCheck ⟨some []⟩ = false ∧
    finalProcessOperation envEmptyItems "pr" 0 =
      .preempted "zone0" (target_url_base "pr" "zone0" "inst0") ∧
    processOperation envEmptyItems "pr" 0 =
      .notPreempted "zone0" (target_url_base "pr" "zone0" "inst0") ∧
    (runLoop envEmptyItems "pr" 1 0 0 none).report = .finalPreempted := by decide

/-- C3 (amended): on the mid-loop path a terminal failed operation with a
worker-assignment event is classified preempted exactly when the
zoneOperations response for the built URL has an `items` list containing
an entry of the instance-preempted operation type (otherwise it is
failed-but-not-preempted); on the final path it is reported preempted
exactly when the `items` key is present, even when the list is empty. -/
theorem c3_classification (env : Env) (project : String) (idx : Nat)
    (events : List Event) (e : Event) (inst zone : String)
    (hpoll : env.polls idx = .terminal true events)
    (hwa : hasWorkerAssignedEvent events = true)
    (hfirst : startup_event events = some e)
    (hlast : events.getLast? = some e)
    (hi : e.details.inst = some inst) (hz : e.details.zone = some zone) :
    ((processOperation env project idx).isPreempted = true ↔
      midPreemptionCheck
        (env.zoneOperations zone (target_url_base project zone inst)) = true) ∧
    (midPreemptionCheck
        (env.zoneOperations zone (target_url_base project zone inst)) = true ↔
      ∃ items,
        (env.zoneOperations zone (target_url_base project zone inst)).items =
          some items ∧
        ∃ x ∈ items, x.operationType = preemptedOperationType) ∧
    ((finalProcessOperation env project idx).isPreempted = true ↔
      (env.zoneOperations zone
        (target_url_base project zone inst)).items.isSome = true) := by
  have hm : processOperation env project idx =
      (if midPreemptionCheck
          (env.zoneOperations zone (target_url_base project zone inst)) then
        .preempted zone (target_url_base project zone inst)
      else
        .notPreempted zone (target_url_base project zone inst)) := by
    simp [processOperation, hpoll, hwa, hfirst, hi, hz]
  have hf : finalProcessOperation env project idx =
      (if finalPreemptionCheck
          (env.zoneOperations zone (target_url_base project zone inst)) then
        .preempted zone (target_url_base project zone inst)
      else
        .notPreempted zone (target_url_base project zone inst)) := by
    simp [finalProcessOperation, hpoll, hwa, hlast, hi, hz]
  refine ⟨?_, ?_, ?_⟩
  · rw [hm]
    split_ifs with hc <;> simp [ProcessResult.isPreempted, hc]
  · cases hri : (env.zoneOperations zone (target_url_base project zone inst)).items
      with
    | none => simp [midPreemptionCheck, hri]
    | some items => simp [midPreemptionCheck, hri, List.any_eq_true]
  · rw [hf]
    unfold finalPreemptionCheck
    split_ifs with hc <;> simp [ProcessResult.isPreempted, hc]

/-- C3 witness: the amended classification at a concrete preempted run. -/
theorem c3_witness :
    (processOperation envPreempt "pr" 0).isPreempted = true :=
  ((c3_classification envPreempt "pr" 0 [waEvent "inst0" "zone0"]
      (waEvent "inst0" "zone0") "inst0" "zone0" rfl (by decide) (by decide)
      (by decide) rfl rfl).1).mpr (by decide)

/-- C4: over a whole run with budget `p` preemptible and `n`
non-preemptible tries, at most `p + n` operations are submitted, and
exactly `p + n` are submitted only if every attempt before the last
(i.e. every mid-loop classification) was classified preempted. -/
theorem c4_budget (env : Env) (project : String) (p n : Nat) :
    (runLoop env project p n 0 none).submissions ≤ p + n ∧
    ((runLoop env project p n 0 none).submissions = p + n →
      (∀ x ∈ (runLoop env project p n 0 none).processed,
        x.isPreempted = true) ∧
      (runLoop env project p n 0 none).processed.length = p + n - 1) := by
  constructor
  · exact runLoopGo_submissions_le env project (p + n) p n 0 none
  · intro hs
    have h := runLoopGo_exact env project (p + n) p n 0 none hs
    exact ⟨h.1, h.2⟩

/-- C4 witness: a run that spends the whole budget of `2 + 1` tries, with
both mid-loop classifications preempted. -/
theorem c4_witness :
    (∀ x ∈ (runLoop envPreempt "pr" 2 1 0 none).processed,
      x.isPreempted = true) ∧
    (runLoop envPreempt "pr" 2 1 0 none).processed.length = 2 + 1 - 1 :=
  (c4_budget envPreempt "pr" 2 1).2 (by decide)

/-- C5: when `NONPREEMPTIBLE_TRY` is falsy, `non_preemptible_tries` is
never assigned (lines 134-135), so the first evaluation of the loop guard
at line 286 raises an unhandled `NameError` and the run aborts with no
submission at all, whatever the value of `PREEMPTIBLE_TRIES`. -/
theorem c5_name_error (env : Env) (project : String) (preemptibleTries : Nat) :
    mainRun env project preemptibleTries false =
      ⟨none, .raised .nameError, 0, [], []⟩ := rfl

/-- C6 counterexample: attempt 2 (1-based) is the first whose operation
carries no error, yet the run performs only 1 submission and exits with
code 2, because attempt 1 fails before worker assignment — the claim's
universal quantification over all sequences of terminal operations is
false. -/
theorem c6_counterexample :
    envFirstFatal.polls 0 = .terminal true [pullEvent] ∧
    envFirstFatal.polls 1 = .terminal false [] ∧
    (runLoop envFirstFatal "pr" 3 0 0 none).submissions = 1 ∧
    (runLoop envFirstFatal "pr" 3 0 0 none).report = .preStartFailure ∧
    (runLoop envFirstFatal "pr" 3 0 0 none).exitCode = some 2 := by decide

/-- C6 (amended): if attempt `k` (1-based) is the first whose operation
carries no error, `k` is within the budget, and every earlier attempt is
classified preempted by the mid-loop classifier, then the run performs
exactly `k` submissions, makes none afterwards, and ends with the
operation-succeeded report and exit code 0 regardless of remaining
budget. -/
theorem c6_first_success (env : Env) (project : String) (p n k : Nat)
    (evs : List Event) (hk : 1 ≤ k) (hbud : k ≤ p + n)
    (hsucc : env.polls (k - 1) = .terminal false evs)
    (hmid : ∀ i, i + 1 < k →
      (processOperation env project i).isPreempted = true) :
    (runLoop env project p n 0 none).submissions = k ∧
    (runLoop env project p n 0 none).report = .operationSucceeded ∧
    (runLoop env project p n 0 none).exitCode = some 0 := by
  have adv := runLoop_advance_succeed env project k evs hsucc hmid (k - 1)
  by_cases hp : p > 0
  · rw [runLoop_none_p env project n 0 hp]
    have h := adv (p - 1) n 1 (by omega) (le_refl 1) (by omega)
    have h1 := h.1
    have h2 := h.2.1
    have h3 := h.2.2
    simp only [Nat.sub_self, Nat.zero_add] at h1 h2 h3
    refine ⟨?_, ?_, ?_⟩
    · dsimp only
      simp only [Nat.zero_add]
      omega
    · dsimp only
      simp only [Nat.zero_add]
      exact h2
    · dsimp only
      simp only [Nat.zero_add]
      exact h1
  · rw [runLoop_none_np env project 0 hp (by omega)]
    have h := adv p (n - 1) 1 (by omega) (le_refl 1) (by omega)
    have h1 := h.1
    have h2 := h.2.1
    have h3 := h.2.2
    simp only [Nat.sub_self, Nat.zero_add] at h1 h2 h3
    refine ⟨?_, ?_, ?_⟩
    · dsimp only
      simp only [Nat.zero_add]
      omega
    · dsimp only
      simp only [Nat.zero_add]
      exact h2
    · dsimp only
      simp only [Nat.zero_add]
      exact h1

/-- C6 witness: attempt 1 preempted, attempt 2 succeeds, budget 3 + 0:
exactly 2 submissions and exit code 0. -/
theorem c6_witness :
    (runLoop envSecondSucceeds "pr" 3 0 0 none).submissions = 2 ∧
    (runLoop envSecondSucceeds "pr" 3 0 0 none).report =
      .operationSucceeded ∧
    (runLoop envSecondSucceeds "pr" 3 0 0 none).exitCode = some 0 :=
  c6_first_success envSecondSucceeds "pr" 3 0 2 [] (by decide) (by decide)
    (by decide)
    (by intro i hi
        have h0 : i = 0 := by omega
        rw [h0]
        decide)

/-- C7: when the budget is exhausted with every mid-loop classification
preempted and the final attempt's failure also classified as due to
preemption, the run performs exactly `p + n` submissions (none after the
last failure) and exits with code 0, not a hard-failure code. -/
theorem c7_exhausted_preempted (env : Env) (project : String) (p n : Nat)
    (hpos : 0 < p + n)
    (hmid : ∀ i, i + 1 < p + n →
      (processOperation env project i).isPreempted = true)
    (hfin : (finalProcessOperation env project (p + n - 1)).isPreempted =
      true) :
    (runLoop env project p n 0 none).submissions = p + n ∧
    (runLoop env project p n 0 none).report = .finalPreempted ∧
    (runLoop env project p n 0 none).exitCode = some 0 := by
  by_cases hp : p > 0
  · rw [runLoop_none_p env project n 0 hp]
    have adv := runLoop_advance_preempted env project (p + n - 1) (p - 1) n 1
      (by omega) (le_refl 1)
      (by intro i h1 h2
          exact hmid i (by omega))
      (by have he : 1 + (p + n - 1) - 1 = p + n - 1 := by omega
          rw [he]
          exact hfin)
    have h1 := adv.1
    have h2 := adv.2.1
    have h3 := adv.2.2
    simp only [Nat.sub_self, Nat.zero_add] at h1 h2 h3
    refine ⟨?_, ?_, ?_⟩
    · dsimp only
      simp only [Nat.zero_add]
      omega
    · dsimp only
      simp only [Nat.zero_add]
      exact h2
    · dsimp only
      simp only [Nat.zero_add]
      exact h1
  · rw [runLoop_none_np env project 0 hp (by omega)]
    have adv := runLoop_advance_preempted env project (p + n - 1) p (n - 1) 1
      (by omega) (le_refl 1)
      (by intro i h1 h2
          exact hmid i (by omega))
      (by have he : 1 + (p + n - 1) - 1 = p + n - 1 := by omega
          rw [he]
          exact hfin)
    have h1 := adv.1
    have h2 := adv.2.1
    have h3 := adv.2.2
    simp only [Nat.sub_self, Nat.zero_add] at h1 h2 h3
    refine ⟨?_, ?_, ?_⟩
    · dsimp only
      simp only [Nat.zero_add]
      omega
    · dsimp only
      simp only [Nat.zero_add]
      exact h2
    · dsimp only
      simp only [Nat.zero_add]
      exact h1

/-- C7 witness: budget `3 + 0`, all three attempts preempted: exactly 3
submissions, final-preempted report, exit code 0. -/
theorem c7_witness :
    (runLoop envPreempt "pr" 3 0 0 none).submissions = 3 + 0 ∧
    (runLoop envPreempt "pr" 3 0 0 none).report = .finalPreempted ∧
    (runLoop envPreempt "pr" 3 0 0 none).exitCode = some 0 :=
  c7_exhausted_preempted envPreempt "pr" 3 0 (by decide)
    (by intro i hi
        have h0 : i = 0 ∨ i = 1 := by omega
        rcases h0 with h0 | h0 <;> rw [h0] <;> decide)
    (by decide)

/-- C8: an `ssl.SSLError` raised while polling terminates the run
immediately with exit code 1 and no further submission, both when retry
budget remains (first conjunct, any `0 < p + n`) and on the final poll
(second conjunct); the poll is not retried. -/
theorem c8_poll_transport_fatal (env : Env) (project : String)
    (p n counter idx : Nat) (hssl : env.polls idx = .sslError) :
    (0 < p + n →
      runLoop env project p n counter (some idx) =
        ⟨some 1, .networkError, 0, [], [.networkError]⟩) ∧
    (p + n = 0 →
      runLoop env project p n counter (some idx) =
        ⟨some 1, .networkError, 0, [], []⟩) := by
  have hproc : processOperation env project idx = .networkError := by
    simp [processOperation, hssl]
  have hfproc : finalProcessOperation env project idx = .networkError := by
    simp [finalProcessOperation, hssl]
  constructor
  · intro h
    exact runLoop_some_ssl env project counter idx h hproc
  · intro h
    rw [runLoop_eq_final env project counter (some idx) h]
    simp [finalBlock, hfproc]

/-- C8 witness: a transport error while polling with budget `3 + 1`
remaining exits with code 1 after zero further submissions. -/
theorem c8_witness :
    runLoop envSSL "pr" 3 1 5 (some 7) =
      ⟨some 1, .networkError, 0, [], [.networkError]⟩ :=
  (c8_poll_transport_fatal envSSL "pr" 3 1 5 7 rfl).1 (by decide)

/-- C9: a terminal failed operation with no worker-assignment event is
classified as a pre-start failure on both paths, purely as a function of
the event list (any zoneOperations service gives the same result, and no
query is recorded), the loop makes no further submission regardless of
remaining budget, and the process exits with code 2. -/
theorem c9_prestart (env : Env) (project : String) (idx p n counter : Nat)
    (events : List Event) (hpoll : env.polls idx = .terminal true events)
    (hwa : hasWorkerAssignedEvent events = false) :
    processOperation env project idx = .preStart events ∧
    finalProcessOperation env project idx = .preStart events ∧
    (∀ zq : String → String → ZoneOpsResponse,
      processOperation ⟨env.polls, zq⟩ project idx = .preStart events) ∧
    (0 < p + n →
      runLoop env project p n counter (some idx) =
        ⟨some 2, .preStartFailure, 0, [], [.preStart events]⟩) ∧
    (p + n = 0 →
      runLoop env project p n counter (some idx) =
        ⟨some 2, .preStartFailure, 0, [], []⟩) := by
  have hproc : processOperation env project idx = .preStart events := by
    simp [processOperation, hpoll, hwa]
  have hfproc : finalProcessOperation env project idx = .preStart events := by
    simp [finalProcessOperation, hpoll, hwa]
  refine ⟨hproc, hfproc, ?_, ?_, ?_⟩
  · intro zq
    simp [processOperation, hpoll, hwa]
  · intro h
    exact runLoop_some_prestart env project counter idx events h hproc
  · intro h
    rw [runLoop_eq_final env project counter (some idx) h]
    simp [finalBlock, hfproc]

/-- C9 witness: a pre-start failure with budget `3 + 0` remaining exits
with code 2 after zero further submissions. -/
theorem c9_witness :
    processOperation envPreStart "pr" 0 = .preStart [pullEvent] ∧
    runLoop envPreStart "pr" 3 0 0 (some 0) =
      ⟨some 2, .preStartFailure, 0, [], [.preStart [pullEvent]]⟩ :=
  ⟨(c9_prestart envPreStart "pr" 0 3 0 0 [pullEvent] rfl (by decide)).1,
   (c9_prestart envPreStart "pr" 0 3 0 0 [pullEvent] rfl
      (by decide)).2.2.2.1 (by decide)⟩

/-- C10: over a whole run, every recorded attempt starts while the two
counters sum to a positive value, the attempts' counters never exceed the
initial budget and are non-increasing between consecutive attempts, and
the submitted request's preemptible flag is true exactly while the
preemptible counter is positive (so the non-preemptible counter is drawn
on only once the preemptible one is zero). -/
theorem c10_budget_invariants (env : Env) (project : String) (p n : Nat) :
    (∀ a ∈ (runLoop env project p n 0 none).attempts,
      a.1 ≤ p ∧ a.2.1 ≤ n ∧ 0 < a.1 + a.2.1 ∧ a.2.2 = decide (a.1 > 0)) ∧
    List.Chain' (fun a b : Nat × Nat × Bool => b.1 ≤ a.1 ∧ b.2.1 ≤ a.2.1)
      (runLoop env project p n 0 none).attempts :=
  runLoopGo_attempts_inv env project (p + n) p n 0 none

/-- C10 witness: the invariants at the non-preemptible attempt `(0, 1,
false)` of a run with budget `2 + 1` that exhausts the preemptible tries
first. -/
theorem c10_witness :
    (0, 1, false).1 ≤ 2 ∧ (0, 1, false).2.1 ≤ 1 ∧
    0 < (0, 1, false).1 + (0, 1, false).2.1 ∧
    (0, 1, false).2.2 = decide ((0, 1, false).1 > 0) :=
  (c10_budget_invariants envPreempt "pr" 2 1).1 (0, 1, false) (by decide)
